import Mathlib

/-!
Verification of the db-heal crash-recovery test harness.

Shallow embedding of `scripts/db-heal-test.py` (the db-heal fault-injection
harness) together with proofs about its log-monitoring function
(`check_aida_log`), its checkpoint query (`get_latest_checkpoint_from_info`)
and its main iteration loop.

External effects (the Aida sync process, the `go run ./database/mpt/tool`
subcommands, the filesystem and the wall clock) are modelled as inputs:

* the log monitor consumes a list of `LogEvent`s, one per pass of its polling
  loop, each recording what `f.readline()` returned, the values the two
  `time.time()` calls would return on that pass, and what `process.poll()`
  returned;
* the main loop consumes a `RunEnv` giving, for each iteration, the exit
  codes of the external tool invocations, the parsed output of the `info`
  command and the verdict of the log monitor, and it produces the list of
  observable `Action`s the script performs, ending in `sys.exit`.
-/

namespace DbHeal

/-- Substring test on character lists: does `l` contain `pat` as a contiguous
infix?  This models python's `pat in line` operator. -/
def listContains (pat : List Char) : List Char → Bool
  | [] => pat.isEmpty
  | c :: rest => pat.isPrefixOf (c :: rest) || listContains pat rest

/-- Python's `pat in s` substring operator on strings. -/
def strContains (s pat : String) : Bool :=
  listContains pat.toList s.toList

/-- `"Track: block" in line` — the progress test of `check_aida_log`. -/
def isTrackLine (l : String) : Bool := strContains l "Track: block"

/-- `any(s in line for s in ["exit status", "fail"])` — the failure-token
test of `check_aida_log`. -/
def isFatalLine (l : String) : Bool :=
  strContains l "exit status" || strContains l "fail"

/-- One pass of the polling loop in `check_aida_log`.  `line` is what
`f.readline()` returned (`none` models the empty string at end of file),
`tCheck` and `tSet` are the values the two `time.time()` calls of that pass
would observe, and `poll` is the result of `process.poll()` (`none` while the
process is still running). -/
structure LogEvent where
  line : Option String
  tCheck : ℤ
  tSet : ℤ
  poll : Option ℤ
deriving DecidableEq

/-- The two return paths of `check_aida_log`: `killed` is the
`process.terminate(); return False` path (the kill window elapsed, the
monitor requested termination of the process), `failed` is the
`return True` path (a failure signal was observed in the log). -/
inductive MonitorResult where
  | killed
  | failed
deriving DecidableEq

/-- The boolean `check_aida_log` hands back to the orchestrator
(`has_failed`): `False` on the terminate path, `True` on the failure path. -/
def MonitorResult.toFailed : MonitorResult → Bool
  | .killed => false
  | .failed => true

/-- Does this polling pass read a line containing the progress marker? -/
def isTrackEv (e : LogEvent) : Bool :=
  match e.line with
  | none => false
  | some l => isTrackLine l

/-- The polling loop of `check_aida_log`, threading the `start` variable
(initially `0.0`; the code tests `start > 0` and `start == 0.0` literally).
Returns `none` when the event list is exhausted without the function
returning — i.e. the python loop is still running after those passes. -/
def checkGo (sleep_time : ℤ) : ℤ → List LogEvent → Option MonitorResult
  | _, [] => none
  | start, e :: rest =>
    match e.line with
    | none => checkGo sleep_time start rest
    | some l =>
      if 0 < start ∧ sleep_time ≤ e.tCheck - start then
        some .killed
      else
        let start' := if start = 0 ∧ isTrackLine l then e.tSet else start
        if e.poll = some 1 ∨ isFatalLine l then some .failed
        else checkGo sleep_time start' rest

/-- `check_aida_log(sleep_time, checkpoint)` from the script.  The
`checkpoint` parameter is declared exactly as in the source; the body never
reads it. -/
def check_aida_log (sleep_time : ℤ) (checkpoint : ℤ)
    (evs : List LogEvent) : Option MonitorResult :=
  checkGo sleep_time 0 evs

/-- Observable actions of the script: process launches, external tool
invocations (with their exit codes as reported by the environment),
directory removals and the final `sys.exit`. -/
inductive Action where
  | launchSync (firstBlock : ℤ) (dbSrc : Option String)
  | monitorVerdict (failedFlag : Bool)
  | runInfo (archivePath : String) (result : ℤ)
  | runReset (archivePath : String) (checkpoint : ℤ) (exitCode : ℤ)
  | runExport (archivePath : String) (checkpoint : ℤ) (exitCode : ℤ)
  | runImport (livePath : String) (exitCode : ℤ)
  | removeTree (path : String)
  | exitWith (code : ℤ)
deriving DecidableEq

/-- `get_latest_checkpoint_from_info` from the script.  `returncode` is the
exit code of `go run ./database/mpt/tool info <archive>`; `lastWordValue` is
the integer that `int(cp)` yields from the last word of the last line of the
info log when the command succeeded.  On failure (`has_program_failed`) the
function returns `-1`. -/
def get_latest_checkpoint_from_info (returncode : ℤ) (lastWordValue : ℤ) : ℤ :=
  if returncode ≠ 0 then -1 else lastWordValue

/-- Environment inputs consumed by one pass of the main `for` loop: the
directory `find_working_db` returns, the exit code and parsed output of the
`info` command, the exit codes of the `reset`, `export` and `import-live-db`
tool invocations, and the boolean verdict of `check_aida_log` for the
relaunched sync process. -/
structure IterEnv where
  newDb : String
  infoExit : ℤ
  infoValue : ℤ
  resetExit : ℤ
  exportExit : ℤ
  importExit : ℤ
  monitorFailed : Bool
deriving DecidableEq

/-- The mutable script state threaded through the loop: `working_db`,
`last_working_db`, `has_failed`, plus the trace of actions performed so
far. -/
structure LoopState where
  workingDb : String
  lastWorkingDb : String
  hasFailed : Bool
  trace : List Action
deriving DecidableEq

/-- The value `latest_checkpoint = get_latest_checkpoint_from_info()` takes
in an iteration with environment `e`. -/
def iterCheckpoint (e : IterEnv) : ℤ :=
  get_latest_checkpoint_from_info e.infoExit e.infoValue

/-- `archive = os.path.join(working_db, 'archive')`. -/
def archiveOf (db : String) : String := db ++ "/archive"

/-- `live = os.path.join(working_db, 'live')`. -/
def liveOf (db : String) : String := db ++ "/live"

/-- One pass of the main `for` loop (lines 204–279 of the script).  Returns
the updated state and whether the loop continues (`false` on any `break`).
The order of the emitted actions mirrors the source: `info` query, `reset`,
`export`, `shutil.rmtree(live)`, `import-live-db`, relaunch of the sync
process with `--db-src working_db` and start block `latest_checkpoint + 1`,
then the monitor verdict. -/
def runIteration (e : IterEnv) (s : LoopState) : LoopState × Bool :=
  let lastDb := s.workingDb
  let db := e.newDb
  let cp := iterCheckpoint e
  let t1 := s.trace ++
    [Action.runInfo (archiveOf db) cp, Action.runReset (archiveOf db) cp e.resetExit]
  if e.resetExit ≠ 0 then
    ({ workingDb := db, lastWorkingDb := lastDb, hasFailed := true, trace := t1 }, false)
  else
    let t2 := t1 ++ [Action.runExport (archiveOf db) cp e.exportExit]
    if e.exportExit ≠ 0 then
      ({ workingDb := db, lastWorkingDb := lastDb, hasFailed := true, trace := t2 }, false)
    else
      let t3 := t2 ++ [Action.removeTree (liveOf db), Action.runImport (liveOf db) e.importExit]
      if e.importExit ≠ 0 then
        ({ workingDb := db, lastWorkingDb := lastDb, hasFailed := true, trace := t3 }, false)
      else
        let t4 := t3 ++
          [Action.launchSync (cp + 1) (some db), Action.monitorVerdict e.monitorFailed]
        ({ workingDb := db, lastWorkingDb := lastDb, hasFailed := e.monitorFailed,
           trace := t4 }, !e.monitorFailed)

/-- The main `for i in range(1, number_of_iterations + 1)` loop: run passes
until the environment list is exhausted or a pass breaks. -/
def runLoop : List IterEnv → LoopState → LoopState
  | [], s => s
  | e :: es, s =>
    let r := runIteration e s
    if r.2 then runLoop es r.1 else r.1

/-- Environment inputs for a whole run: the verdict of `check_aida_log` on
the bootstrap sync, the directory `find_working_db` locates after the
bootstrap, and the per-iteration inputs. -/
structure RunEnv where
  bootstrapFailed : Bool
  bootstrapDb : String
  iters : List IterEnv
deriving DecidableEq

/-- The whole script after workspace creation (lines 183–290): bootstrap
sync from block `0` with no `--db-src`, monitor it; on a bootstrap failure
`sys.exit(1)` immediately (no cleanup happens on this path in the source);
otherwise run the loop, then `shutil.rmtree(working_dir, ignore_errors=True)`
and exit `1` or `0` according to `has_failed`. -/
def runScript (workingDir : String) (env : RunEnv) : List Action :=
  let t0 : List Action :=
    [Action.launchSync 0 none, Action.monitorVerdict env.bootstrapFailed]
  if env.bootstrapFailed then t0 ++ [Action.exitWith 1]
  else
    let s := runLoop env.iters
      { workingDb := env.bootstrapDb, lastWorkingDb := "", hasFailed := false,
        trace := t0 }
    s.trace ++ [Action.removeTree workingDir,
      Action.exitWith (if s.hasFailed then 1 else 0)]

/-- Actions that the script treats as fatal: a `True` verdict from the log
monitor (`has_failed`), or a non-zero exit code from `reset`, `export` or
`import-live-db`. -/
def Action.isFatalSignal : Action → Bool
  | .monitorVerdict b => b
  | .runReset _ _ c => c != 0
  | .runExport _ _ c => c != 0
  | .runImport _ c => c != 0
  | _ => false

/-- Is this action an invocation of the `reset` tool? -/
def Action.isReset : Action → Bool
  | .runReset _ _ _ => true
  | _ => false

/-- Is this action a directory removal? -/
def Action.isRemove : Action → Bool
  | .removeTree _ => true
  | _ => false

/-- Number of removals of exactly the directory `p` in a trace. -/
def countRemovalsOf (p : String) (tr : List Action) : ℕ :=
  tr.countP (fun a => a == Action.removeTree p)

/-- When the log file yields no new line, the polling loop just sleeps and
retries: no pass without a line can ever produce a verdict. -/
lemma checkGo_all_noline (w : ℤ) (start : ℤ) (evs : List LogEvent)
    (h : ∀ e ∈ evs, e.line = none) : checkGo w start evs = none := by
  induction evs with
  | nil => rfl
  | cons e rest ih =>
    have he : e.line = none := h e (List.mem_cons_self e rest)
    have hstep : checkGo w start (e :: rest) = checkGo w start rest := by
      simp [checkGo, he]
    rw [hstep]
    exact ih (fun x hx => h x (List.mem_cons_of_mem e hx))

/-- Appending line-less polling passes after any observation history does not
change the monitor's outcome: once the log stops growing, further polling
never produces a verdict. -/
lemma checkGo_append_noline (w : ℤ) (tail : List LogEvent)
    (ht : ∀ e ∈ tail, e.line = none) :
    ∀ (evs : List LogEvent) (start : ℤ),
      checkGo w start (evs ++ tail) = checkGo w start evs := by
  intro evs
  induction evs with
  | nil =>
    intro start
    simpa using checkGo_all_noline w start tail ht
  | cons e rest ih =>
    intro start
    cases he : e.line with
    | none => simp [checkGo, he, ih]
    | some l =>
      by_cases hk : 0 < start ∧ w ≤ e.tCheck - start
      · simp [checkGo, he, hk]
      · by_cases hf : e.poll = some 1 ∨ isFatalLine l
        · simp [checkGo, he, hk, hf]
        · have hstep : ∀ evs', checkGo w start (e :: evs') =
              checkGo w (if start = 0 ∧ isTrackLine l then e.tSet else start) evs' := by
            intro evs'; simp [checkGo, he, hk, hf]
          simp only [List.cons_append, hstep]
          exact ih _

/-- Once the timer variable `start` is non-zero it never changes again, and a
`killed` verdict requires a later pass whose time check is at least the kill
window past `start`. -/
lemma checkGo_killed_of_armed (w : ℤ) :
    ∀ (evs : List LogEvent) (start : ℤ), start ≠ 0 →
      checkGo w start evs = some MonitorResult.killed →
      ∃ f ∈ evs, w ≤ f.tCheck - start := by
  intro evs
  induction evs with
  | nil => intro start _ h; simp [checkGo] at h
  | cons e rest ih =>
    intro start hs h
    cases he : e.line with
    | none =>
      rw [show checkGo w start (e :: rest) = checkGo w start rest by
        simp [checkGo, he]] at h
      obtain ⟨f, hf, hw⟩ := ih start hs h
      exact ⟨f, List.mem_cons_of_mem _ hf, hw⟩
    | some l =>
      by_cases hk : 0 < start ∧ w ≤ e.tCheck - start
      · exact ⟨e, List.mem_cons_self _ _, hk.2⟩
      · by_cases hf : e.poll = some 1 ∨ isFatalLine l
        · rw [show checkGo w start (e :: rest) = some MonitorResult.failed by
            simp [checkGo, he, hk, hf]] at h
          simp at h
        · rw [show checkGo w start (e :: rest) =
              checkGo w (if start = 0 ∧ isTrackLine l then e.tSet else start) rest by
            simp [checkGo, he, hk, hf]] at h
          rw [if_neg (fun hc => hs hc.1)] at h
          obtain ⟨f, hfm, hw⟩ := ih start hs h
          exact ⟨f, List.mem_cons_of_mem _ hfm, hw⟩

/-- From the unarmed state, a `killed` verdict pins down the shape of the
history: a first progress line (all earlier passes are non-progress), whose
recorded time arms the timer, followed by a pass whose time check is at
least the kill window later.  Requires all recorded times to be positive,
as values of `time.time()` are. -/
lemma checkGo_killed_first_track (w : ℤ) :
    ∀ (evs : List LogEvent),
      (∀ e ∈ evs, 0 < e.tSet) →
      checkGo w 0 evs = some MonitorResult.killed →
      ∃ l₁ tr l₂, evs = l₁ ++ tr :: l₂ ∧ isTrackEv tr = true ∧
        (∀ e ∈ l₁, isTrackEv e = false) ∧
        ∃ f ∈ l₂, w ≤ f.tCheck - tr.tSet := by
  intro evs
  induction evs with
  | nil => intro _ h; simp [checkGo] at h
  | cons e rest ih =>
    intro hpos h
    cases he : e.line with
    | none =>
      rw [show checkGo w 0 (e :: rest) = checkGo w 0 rest by
        simp [checkGo, he]] at h
      obtain ⟨l₁, tr, l₂, hsplit, htr, hnone, hf⟩ :=
        ih (fun x hx => hpos x (List.mem_cons_of_mem e hx)) h
      refine ⟨e :: l₁, tr, l₂, by simp [hsplit], htr, ?_, hf⟩
      intro x hx
      rcases List.mem_cons.mp hx with rfl | hx
      · simp [isTrackEv, he]
      · exact hnone x hx
    | some l =>
      have hk : ¬(0 < (0 : ℤ) ∧ w ≤ e.tCheck - 0) := by
        rintro ⟨h0, _⟩; exact lt_irrefl _ h0
      by_cases hf : e.poll = some 1 ∨ isFatalLine l
      · rw [show checkGo w 0 (e :: rest) = some MonitorResult.failed by
          simp [checkGo, he, hk, hf]] at h
        simp at h
      · rw [show checkGo w 0 (e :: rest) =
            checkGo w (if (0 : ℤ) = 0 ∧ isTrackLine l then e.tSet else 0) rest by
          simp [checkGo, he, hk, hf]] at h
        by_cases htl : isTrackLine l
        · rw [if_pos ⟨rfl, htl⟩] at h
          have hset : (0 : ℤ) < e.tSet := hpos e (List.mem_cons_self _ _)
          obtain ⟨f, hfm, hw⟩ :=
            checkGo_killed_of_armed w rest e.tSet (ne_of_gt hset) h
          exact ⟨[], e, rest, rfl, by simp [isTrackEv, he, htl], by simp,
            f, hfm, hw⟩
        · rw [if_neg (fun hc => htl hc.2)] at h
          obtain ⟨l₁, tr, l₂, hsplit, htr, hnone, hf'⟩ :=
            ih (fun x hx => hpos x (List.mem_cons_of_mem e hx)) h
          refine ⟨e :: l₁, tr, l₂, by simp [hsplit], htr, ?_, hf'⟩
          intro x hx
          rcases List.mem_cons.mp hx with rfl | hx
          · simp only [isTrackEv, he]
            exact Bool.of_not_eq_true htl ▸ rfl
          · exact hnone x hx

/-- The actions a successful loop pass performs before the monitor verdict:
`info` query returning `cp` for the archive of `db`, an accepted `reset` of
that archive to `cp`, a successful `export` at `cp`, removal of the live
store, a successful `import-live-db`, and the relaunch of the sync process
from block `cp + 1` with `db` as `--db-src`. -/
def resumeSegment (db : String) (cp : ℤ) : List Action :=
  [Action.runInfo (archiveOf db) cp, Action.runReset (archiveOf db) cp 0,
   Action.runExport (archiveOf db) cp 0, Action.removeTree (liveOf db),
   Action.runImport (liveOf db) 0, Action.launchSync (cp + 1) (some db)]

/-- The `reset`-failed pass: emits the `info` query and the failed `reset`,
sets `has_failed` and breaks. -/
lemma runIteration_reset_ne (e : IterEnv) (s : LoopState) (h : e.resetExit ≠ 0) :
    runIteration e s =
      ({ workingDb := e.newDb, lastWorkingDb := s.workingDb, hasFailed := true,
         trace := s.trace ++
           [Action.runInfo (archiveOf e.newDb) (iterCheckpoint e),
            Action.runReset (archiveOf e.newDb) (iterCheckpoint e) e.resetExit] },
       false) := by
  simp [runIteration, h]

/-- The `export`-failed pass. -/
lemma runIteration_export_ne (e : IterEnv) (s : LoopState)
    (h1 : e.resetExit = 0) (h2 : e.exportExit ≠ 0) :
    runIteration e s =
      ({ workingDb := e.newDb, lastWorkingDb := s.workingDb, hasFailed := true,
         trace := s.trace ++
           [Action.runInfo (archiveOf e.newDb) (iterCheckpoint e),
            Action.runReset (archiveOf e.newDb) (iterCheckpoint e) 0,
            Action.runExport (archiveOf e.newDb) (iterCheckpoint e) e.exportExit] },
       false) := by
  simp [runIteration, h1, h2]

/-- The `import-live-db`-failed pass (the live store has already been
removed when the import runs). -/
lemma runIteration_import_ne (e : IterEnv) (s : LoopState)
    (h1 : e.resetExit = 0) (h2 : e.exportExit = 0) (h3 : e.importExit ≠ 0) :
    runIteration e s =
      ({ workingDb := e.newDb, lastWorkingDb := s.workingDb, hasFailed := true,
         trace := s.trace ++
           [Action.runInfo (archiveOf e.newDb) (iterCheckpoint e),
            Action.runReset (archiveOf e.newDb) (iterCheckpoint e) 0,
            Action.runExport (archiveOf e.newDb) (iterCheckpoint e) 0,
            Action.removeTree (liveOf e.newDb),
            Action.runImport (liveOf e.newDb) e.importExit] },
       false) := by
  simp [runIteration, h1, h2, h3]

/-- The fully successful pass: recovery succeeds, the sync process is
relaunched from `iterCheckpoint e + 1` with the recovered database as
source, and the loop continues unless the monitor reported failure. -/
lemma runIteration_success (e : IterEnv) (s : LoopState)
    (h1 : e.resetExit = 0) (h2 : e.exportExit = 0) (h3 : e.importExit = 0) :
    runIteration e s =
      ({ workingDb := e.newDb, lastWorkingDb := s.workingDb,
         hasFailed := e.monitorFailed,
         trace := s.trace ++ (resumeSegment e.newDb (iterCheckpoint e) ++
           [Action.monitorVerdict e.monitorFailed]) },
       !e.monitorFailed) := by
  simp [runIteration, resumeSegment, h1, h2, h3]

/-- A trace is `GoodTrace` when every resumed sync launch in it (one with a
`--db-src`) starts at `cp + 1` for a checkpoint `cp` that, earlier in the
same contiguous stretch, the `info` query reported for that database's
archive and an accepted (exit code 0) `reset` rolled that archive back to. -/
def GoodTrace (tr : List Action) : Prop :=
  ∀ fb db, Action.launchSync fb (some db) ∈ tr →
    ∃ cp, fb = cp + 1 ∧ (resumeSegment db cp).IsInfix tr

lemma GoodTrace.append_right {tr δ : List Action} (h : GoodTrace tr)
    (hδ : ∀ fb db, Action.launchSync fb (some db) ∉ δ) :
    GoodTrace (tr ++ δ) := by
  intro fb db hm
  rcases List.mem_append.mp hm with hm | hm
  · obtain ⟨cp, hcp, hinf⟩ := h fb db hm
    exact ⟨cp, hcp, hinf.trans (List.prefix_append tr δ).isInfix⟩
  · exact absurd hm (hδ fb db)

lemma GoodTrace.append_resume {tr : List Action} (h : GoodTrace tr)
    (db : String) (cp : ℤ) (m : Bool) :
    GoodTrace (tr ++ (resumeSegment db cp ++ [Action.monitorVerdict m])) := by
  intro fb db' hm
  rcases List.mem_append.mp hm with hm | hm
  · obtain ⟨c, hc, hinf⟩ := h fb db' hm
    exact ⟨c, hc, hinf.trans (List.prefix_append _ _).isInfix⟩
  · rcases List.mem_append.mp hm with hm | hm
    · simp only [resumeSegment, List.mem_cons, List.not_mem_nil, or_false] at hm
      rcases hm with h1 | h1 | h1 | h1 | h1 | h1
      · exact absurd h1 (by simp)
      · exact absurd h1 (by simp)
      · exact absurd h1 (by simp)
      · exact absurd h1 (by simp)
      · exact absurd h1 (by simp)
      · obtain ⟨hfb, hdb⟩ := Action.launchSync.inj h1
        obtain rfl := Option.some.inj hdb
        exact ⟨cp, hfb, ⟨tr, [Action.monitorVerdict m], by simp⟩⟩
    · simp at hm

lemma runLoop_good : ∀ (es : List IterEnv) (s : LoopState),
    GoodTrace s.trace → GoodTrace (runLoop es s).trace := by
  intro es
  induction es with
  | nil => intro s h; exact h
  | cons e es ih =>
    intro s h
    by_cases h1 : e.resetExit = 0
    · by_cases h2 : e.exportExit = 0
      · by_cases h3 : e.importExit = 0
        · rw [runLoop, runIteration_success e s h1 h2 h3]
          cases hm : e.monitorFailed with
          | false =>
            simp only [hm, Bool.not_false, if_true]
            exact ih _ (h.append_resume _ _ _)
          | true =>
            simp only [hm, Bool.not_true, if_false]
            exact h.append_resume _ _ _
        · rw [runLoop, runIteration_import_ne e s h1 h2 h3]
          simp only [if_false]
          exact h.append_right (by intro fb db hm; simp at hm)
      · rw [runLoop, runIteration_export_ne e s h1 h2]
        simp only [if_false]
        exact h.append_right (by intro fb db hm; simp at hm)
    · rw [runLoop, runIteration_reset_ne e s h1]
      simp only [if_false]
      exact h.append_right (by intro fb db hm; simp at hm)

/-- A trace contains a fatal condition: a `True` monitor verdict or a failed
recovery step. -/
def HasFatal (tr : List Action) : Prop :=
  ∃ a ∈ tr, a.isFatalSignal = true

lemma hasFatal_append {tr δ : List Action} :
    HasFatal (tr ++ δ) ↔ HasFatal tr ∨ HasFatal δ := by
  constructor
  · rintro ⟨a, ha, hfa⟩
    rcases List.mem_append.mp ha with ha | ha
    · exact Or.inl ⟨a, ha, hfa⟩
    · exact Or.inr ⟨a, ha, hfa⟩
  · rintro (⟨a, ha, hfa⟩ | ⟨a, ha, hfa⟩)
    · exact ⟨a, List.mem_append_left _ ha, hfa⟩
    · exact ⟨a, List.mem_append_right _ ha, hfa⟩

/-- After the loop, `has_failed` is set exactly when the trace acquired a
fatal condition. -/
lemma runLoop_fatal_spec : ∀ (es : List IterEnv) (s : LoopState),
    s.hasFailed = false → ¬ HasFatal s.trace →
    ((runLoop es s).hasFailed = false ∧ ¬ HasFatal (runLoop es s).trace) ∨
    ((runLoop es s).hasFailed = true ∧ HasFatal (runLoop es s).trace) := by
  intro es
  induction es with
  | nil => intro s h0 h1; exact Or.inl ⟨h0, h1⟩
  | cons e es ih =>
    intro s h0 h1
    by_cases hr : e.resetExit = 0
    · by_cases hx : e.exportExit = 0
      · by_cases hi : e.importExit = 0
        · rw [runLoop, runIteration_success e s hr hx hi]
          cases hm : e.monitorFailed with
          | false =>
            simp only [hm, Bool.not_false, if_true]
            refine ih _ rfl ?_
            intro hf
            rcases hasFatal_append.mp hf with hf | hf
            · exact h1 hf
            · rcases hasFatal_append.mp hf with hf | hf
              · obtain ⟨a, ha, hfa⟩ := hf
                simp only [resumeSegment, List.mem_cons, List.not_mem_nil,
                  or_false] at ha
                rcases ha with rfl | rfl | rfl | rfl | rfl | rfl <;>
                  simp [Action.isFatalSignal] at hfa
              · obtain ⟨a, ha, hfa⟩ := hf
                simp only [List.mem_singleton] at ha
                subst ha
                simp [Action.isFatalSignal] at hfa
          | true =>
            simp only [hm, Bool.not_true, if_false]
            refine Or.inr ⟨rfl, ?_⟩
            exact ⟨Action.monitorVerdict true, by simp, rfl⟩
        · rw [runLoop, runIteration_import_ne e s hr hx hi]
          simp only [if_false]
          refine Or.inr ⟨rfl, ?_⟩
          refine ⟨Action.runImport (liveOf e.newDb) e.importExit, by simp, ?_⟩
          simp [Action.isFatalSignal, hi]
      · rw [runLoop, runIteration_export_ne e s hr hx]
        simp only [if_false]
        refine Or.inr ⟨rfl, ?_⟩
        refine ⟨Action.runExport (archiveOf e.newDb) (iterCheckpoint e)
          e.exportExit, by simp, ?_⟩
        simp [Action.isFatalSignal, hx]
    · rw [runLoop, runIteration_reset_ne e s hr]
      simp only [if_false]
      refine Or.inr ⟨rfl, ?_⟩
      refine ⟨Action.runReset (archiveOf e.newDb) (iterCheckpoint e)
        e.resetExit, by simp, ?_⟩
      simp [Action.isFatalSignal, hr]

/-- The only directories the loop ever removes are live stores. -/
def LiveRemovalsOnly (tr : List Action) : Prop :=
  ∀ p, Action.removeTree p ∈ tr → ∃ db, p = liveOf db

lemma liveRemovalsOnly_append {tr δ : List Action}
    (h : LiveRemovalsOnly tr) (hδ : LiveRemovalsOnly δ) :
    LiveRemovalsOnly (tr ++ δ) := by
  intro p hp
  rcases List.mem_append.mp hp with hp | hp
  · exact h p hp
  · exact hδ p hp

lemma runLoop_removals : ∀ (es : List IterEnv) (s : LoopState),
    LiveRemovalsOnly s.trace → LiveRemovalsOnly (runLoop es s).trace := by
  intro es
  induction es with
  | nil => intro s h; exact h
  | cons e es ih =>
    intro s h
    by_cases hr : e.resetExit = 0
    · by_cases hx : e.exportExit = 0
      · by_cases hi : e.importExit = 0
        · rw [runLoop, runIteration_success e s hr hx hi]
          have hseg : ∀ b : Bool,
              LiveRemovalsOnly (resumeSegment e.newDb (iterCheckpoint e) ++
                [Action.monitorVerdict b]) := by
            intro b p hp
            simp only [resumeSegment, List.mem_append, List.mem_cons,
              List.not_mem_nil, or_false, List.mem_singleton] at hp
            rcases hp with (hp | hp | hp | hp | hp | hp) | hp
            · exact absurd hp (by simp)
            · exact absurd hp (by simp)
            · exact absurd hp (by simp)
            · exact ⟨e.newDb, Action.removeTree.inj hp⟩
            · exact absurd hp (by simp)
            · exact absurd hp (by simp)
            · exact absurd hp (by simp)
          cases hm : e.monitorFailed with
          | false =>
            simp only [hm, Bool.not_false, if_true]
            exact ih _ (liveRemovalsOnly_append h (hseg false))
          | true =>
            simp only [hm, Bool.not_true, if_false]
            exact liveRemovalsOnly_append h (hseg true)
        · rw [runLoop, runIteration_import_ne e s hr hx hi]
          simp only [if_false]
          refine liveRemovalsOnly_append h ?_
          intro p hp
          simp only [List.mem_cons, List.not_mem_nil, or_false] at hp
          rcases hp with hp | hp | hp | hp | hp
          · exact absurd hp (by simp)
          · exact absurd hp (by simp)
          · exact absurd hp (by simp)
          · exact ⟨e.newDb, Action.removeTree.inj hp⟩
          · exact absurd hp (by simp)
      · rw [runLoop, runIteration_export_ne e s hr hx]
        simp only [if_false]
        refine liveRemovalsOnly_append h ?_
        intro p hp
        simp only [List.mem_cons, List.not_mem_nil, or_false] at hp
        rcases hp with hp | hp | hp <;> exact absurd hp (by simp)
    · rw [runLoop, runIteration_reset_ne e s hr]
      simp only [if_false]
      refine liveRemovalsOnly_append h ?_
      intro p hp
      simp only [List.mem_cons, List.not_mem_nil, or_false] at hp
      rcases hp with hp | hp <;> exact absurd hp (by simp)

/-- `last_working_db` is assigned the superseded working database at the top
of every pass — and, matching the source, nothing else is ever done with
it. -/
lemma runIteration_lastWorkingDb (e : IterEnv) (s : LoopState) :
    (runIteration e s).1.lastWorkingDb = s.workingDb := by
  by_cases hr : e.resetExit = 0
  · by_cases hx : e.exportExit = 0
    · by_cases hi : e.importExit = 0
      · rw [runIteration_success e s hr hx hi]
      · rw [runIteration_import_ne e s hr hx hi]
    · rw [runIteration_export_ne e s hr hx]
  · rw [runIteration_reset_ne e s hr]

/-- The last element of a trace extended by a two-action epilogue. -/
lemma getLast_append_pair {α : Type} (tr : List α) (x y : α) :
    (tr ++ [x, y]).getLast? = some y := by
  rw [show tr ++ [x, y] = (tr ++ [x]) ++ [y] by simp]
  exact List.getLast?_concat _

/-- The loop state right after a successful bootstrap: `has_failed` is
`False` and the only actions so far are the bootstrap launch and its
monitor verdict. -/
def initState (db : String) : LoopState :=
  { workingDb := db, lastWorkingDb := "", hasFailed := false,
    trace := [Action.launchSync 0 none, Action.monitorVerdict false] }

lemma runScript_eq_of_bootstrap_failed (wd : String) (env : RunEnv)
    (hb : env.bootstrapFailed = true) :
    runScript wd env =
      [Action.launchSync 0 none, Action.monitorVerdict true,
       Action.exitWith 1] := by
  simp [runScript, hb]

lemma runScript_eq_of_bootstrap_ok (wd : String) (env : RunEnv)
    (hb : env.bootstrapFailed = false) :
    runScript wd env =
      (runLoop env.iters (initState env.bootstrapDb)).trace ++
        [Action.removeTree wd,
         Action.exitWith
           (if (runLoop env.iters (initState env.bootstrapDb)).hasFailed
            then 1 else 0)] := by
  simp [runScript, initState, hb]

/-- Every full run trace is a `GoodTrace`: resumed launches only ever come
from the successful-recovery segment. -/
lemma runScript_good (wd : String) (env : RunEnv) :
    GoodTrace (runScript wd env) := by
  by_cases hb : env.bootstrapFailed = true
  · rw [runScript_eq_of_bootstrap_failed wd env hb]
    intro fb db hm
    simp at hm
  · have hb' : env.bootstrapFailed = false := by
      cases h : env.bootstrapFailed
      · rfl
      · exact absurd h hb
    rw [runScript_eq_of_bootstrap_ok wd env hb']
    have hbase : GoodTrace (initState env.bootstrapDb).trace := by
      intro fb db hm
      simp [initState] at hm
    refine (runLoop_good env.iters (initState env.bootstrapDb) hbase).append_right ?_
    intro fb db hm
    simp at hm

/-- Claim C1 (confirmed).  Every resumed sync launch in a run's trace — a
launch carrying a `--db-src` working database — starts at `cp + 1` for a
checkpoint `cp` such that the same contiguous recovery segment contains the
`info` query reporting `cp` for that exact database's archive and the
`reset` of that archive to `cp` returning exit code 0 (accepted),
immediately before the launch.  The harness never resumes from a checkpoint
whose reset failed, nor from any value other than the one the database tool
reported. -/
theorem claim_C1_resume_uses_validated_checkpoint (wd : String) (env : RunEnv)
    (fb : ℤ) (db : String)
    (h : Action.launchSync fb (some db) ∈ runScript wd env) :
    ∃ cp, fb = cp + 1 ∧ (resumeSegment db cp).IsInfix (runScript wd env) :=
  runScript_good wd env fb db h

def iterResume : IterEnv :=
  { newDb := "w/db0", infoExit := 0, infoValue := 40, resetExit := 0,
    exportExit := 0, importExit := 0, monitorFailed := false }

def envResume : RunEnv :=
  { bootstrapFailed := false, bootstrapDb := "w/db0", iters := [iterResume] }

/-- Witness for C1: in the one-iteration run where `info` reports 40 and
every tool succeeds, the resumed launch at block 41 is covered by the
theorem. -/
theorem claim_C1_witness :
    ∃ cp, (41 : ℤ) = cp + 1 ∧
      (resumeSegment "w/db0" cp).IsInfix (runScript "w" envResume) :=
  claim_C1_resume_uses_validated_checkpoint "w" envResume 41 "w/db0" (by decide)

def iterResetFails : IterEnv :=
  { newDb := "w/db0", infoExit := 0, infoValue := 40, resetExit := 1,
    exportExit := 0, importExit := 0, monitorFailed := false }

def envResetFails : RunEnv :=
  { bootstrapFailed := false, bootstrapDb := "w/db0", iters := [iterResetFails] }

/-- Counterexample to claim C2.  The claim says a failed primary `reset`
does not fail the run and triggers an `info`-query fallback with exactly one
retried `reset`.  In the code the `info` query happens unconditionally
before the single `reset`, and a non-zero `reset` exit is immediately
fatal: in this run the only `reset` invocation fails (exit 1), no second
`reset` occurs (the whole trace holds exactly one `reset` action), and the
run exits with status 1. -/
theorem claim_C2_counterexample :
    runScript "w" envResetFails =
      [Action.launchSync 0 none, Action.monitorVerdict false,
       Action.runInfo "w/db0/archive" 40, Action.runReset "w/db0/archive" 40 1,
       Action.removeTree "w", Action.exitWith 1] ∧
    (runScript "w" envResetFails).countP Action.isReset = 1 := by
  decide

/-- Claim C2 as amended.  In each recovery the harness queries the archive's
`info` command first, unconditionally, and uses the returned checkpoint
(`-1` when the query itself failed) for a single `reset` invocation; a
non-zero status from that `reset` is immediately fatal — there is no
fallback query after a reset failure and no retry. -/
theorem claim_C2_amended_no_retry (e : IterEnv) (s : LoopState)
    (h : e.resetExit ≠ 0) :
    runIteration e s =
      ({ workingDb := e.newDb, lastWorkingDb := s.workingDb, hasFailed := true,
         trace := s.trace ++
           [Action.runInfo (archiveOf e.newDb) (iterCheckpoint e),
            Action.runReset (archiveOf e.newDb) (iterCheckpoint e) e.resetExit] },
       false) :=
  runIteration_reset_ne e s h

def emptyState : LoopState :=
  { workingDb := "w/db0", lastWorkingDb := "", hasFailed := false, trace := [] }

/-- Witness for the amended C2 at a concrete failing-reset iteration. -/
theorem claim_C2_amended_witness :
    runIteration iterResetFails emptyState =
      ({ workingDb := iterResetFails.newDb,
         lastWorkingDb := emptyState.workingDb, hasFailed := true,
         trace := emptyState.trace ++
           [Action.runInfo (archiveOf iterResetFails.newDb)
              (iterCheckpoint iterResetFails),
            Action.runReset (archiveOf iterResetFails.newDb)
              (iterCheckpoint iterResetFails) iterResetFails.resetExit] },
       false) :=
  claim_C2_amended_no_retry iterResetFails emptyState (by decide)

/-- Claim C3 (confirmed).  First conjunct: whenever the monitor returns its
terminate-and-kill verdict (given positive clock readings, as `time.time()`
yields), the observation history splits as non-progress passes, then a first
progress line — the pass whose recorded time armed the timer — then a later
pass whose time check is at least the kill window past that first progress
time.  So the kill window is measured from the first progress line, never
from process launch, and no kill happens before a progress line appeared.
Second conjunct: the killed verdict maps to `has_failed = False`
(`MonitorResult.toFailed`), so an iteration whose recovery steps succeed and
whose monitor verdict is the timed-out kill leaves `has_failed` unset and
the loop continues — the timed-out outcome is never by itself fatal. -/
theorem claim_C3_kill_window_from_first_progress :
    (∀ (w cp : ℤ) (evs : List LogEvent),
        (∀ e ∈ evs, 0 < e.tSet) →
        check_aida_log w cp evs = some MonitorResult.killed →
        ∃ l₁ tr l₂, evs = l₁ ++ tr :: l₂ ∧ isTrackEv tr = true ∧
          (∀ e ∈ l₁, isTrackEv e = false) ∧
          ∃ f ∈ l₂, w ≤ f.tCheck - tr.tSet) ∧
    (∀ (e : IterEnv) (s : LoopState),
        e.resetExit = 0 → e.exportExit = 0 → e.importExit = 0 →
        e.monitorFailed = MonitorResult.killed.toFailed →
        (runIteration e s).1.hasFailed = false ∧ (runIteration e s).2 = true) := by
  constructor
  · intro w cp evs hpos h
    exact checkGo_killed_first_track w evs hpos h
  · intro e s h1 h2 h3 hm
    rw [runIteration_success e s h1 h2 h3]
    simp [hm, MonitorResult.toFailed]

def evsKillAfterTrack : List LogEvent :=
  [⟨some "a", 1, 1, none⟩, ⟨some "Track: block 10", 2, 2, none⟩,
   ⟨some "b", 50, 50, none⟩]

def iterKilledOk : IterEnv :=
  { newDb := "w/db0", infoExit := 0, infoValue := 40, resetExit := 0,
    exportExit := 0, importExit := 0, monitorFailed := false }

/-- Witness for C3 on a concrete history (non-progress line, first progress
line at time 2, kill check at time 50 with window 5) and a concrete
iteration whose monitor verdict is the kill. -/
theorem claim_C3_witness :
    (∃ l₁ tr l₂, evsKillAfterTrack = l₁ ++ tr :: l₂ ∧ isTrackEv tr = true ∧
        (∀ e ∈ l₁, isTrackEv e = false) ∧
        ∃ f ∈ l₂, (5 : ℤ) ≤ f.tCheck - tr.tSet) ∧
    ((runIteration iterKilledOk emptyState).1.hasFailed = false ∧
      (runIteration iterKilledOk emptyState).2 = true) :=
  ⟨claim_C3_kill_window_from_first_progress.1 5 10 evsKillAfterTrack
      (by decide) (by decide),
   claim_C3_kill_window_from_first_progress.2 iterKilledOk emptyState
      rfl rfl rfl rfl⟩

def evsLogEnded : List LogEvent :=
  [⟨some "Track: block 10", 1, 1, none⟩, ⟨none, 2, 2, some 0⟩,
   ⟨none, 3, 3, some 0⟩, ⟨none, 4, 4, some 0⟩]

/-- Counterexample to claim C4.  The claim says that if the monitored
process naturally exits (here with code 0, visible to `process.poll()`) and
the log stops growing, the monitor returns a verdict.  On this complete
history — one progress line, then the log ends while the process has exited
successfully — the monitor is still inside its polling loop after every
recorded pass (`none`): the timeout and failure checks are only evaluated
when a new line was read, so it never returns. -/
theorem claim_C4_counterexample :
    check_aida_log 5 10 evsLogEnded = none ∧
    (evsLogEnded.getLast?).map LogEvent.poll = some (some 0) := by
  decide

/-- Claim C4 as amended.  The monitor can only return a verdict upon reading
a new log line: extending any observation history with arbitrarily many
line-less polling passes (regardless of the process's exit status) leaves
the outcome unchanged, so once the log stops growing the monitor never
returns — natural successful completion of the sync process does not wake
it. -/
theorem claim_C4_amended_no_verdict_after_log_stops (w cp : ℤ)
    (evs tail : List LogEvent) (h : ∀ e ∈ tail, e.line = none) :
    check_aida_log w cp (evs ++ tail) = check_aida_log w cp evs :=
  checkGo_append_noline w tail h evs 0

def evsTrackOnly : List LogEvent := [⟨some "Track: block 10", 1, 1, none⟩]

def tailQuiet : List LogEvent := [⟨none, 2, 2, some 0⟩, ⟨none, 3, 3, some 0⟩]

/-- Witness for the amended C4 at a concrete history and quiet tail. -/
theorem claim_C4_amended_witness :
    check_aida_log 5 10 (evsTrackOnly ++ tailQuiet) =
      check_aida_log 5 10 evsTrackOnly :=
  claim_C4_amended_no_verdict_after_log_stops 5 10 evsTrackOnly tailQuiet
    (by decide)

def evsOffBoundary : List LogEvent :=
  [⟨some "Track: block 12345", 1, 1, none⟩, ⟨some "hello", 100, 100, none⟩]

/-- Counterexample to claim C5.  With start checkpoint 10 the next expected
boundary would be a multiple of the granularity, never 12345 — yet the line
`Track: block 12345` is counted as the progress match (it arms the kill
timer, producing the kill verdict at the next pass), and the verdict is
identical when the monitor is told the expected checkpoint is 999999: the
monitor matches a generic substring and tracks no checkpoint at all. -/
theorem claim_C5_counterexample :
    check_aida_log 5 10 evsOffBoundary = some MonitorResult.killed ∧
    check_aida_log 5 999999 evsOffBoundary = some MonitorResult.killed := by
  decide

/-- Claim C5 as amended.  The monitor does not track checkpoint
advancement: its `checkpoint` parameter is unused (the outcome is the same
for any two checkpoint arguments), and any line containing the substring
`Track: block` — whatever block number it carries — is treated as the
progress match, whose only effect is to arm the kill timer when it is not
yet armed; no per-match checkpoint stepping exists. -/
theorem claim_C5_amended_no_checkpoint_tracking :
    (∀ (w cp cp' : ℤ) (evs : List LogEvent),
        check_aida_log w cp evs = check_aida_log w cp' evs) ∧
    (∀ (w : ℤ) (e : LogEvent) (rest : List LogEvent) (l : String),
        e.line = some l → isTrackLine l = true → e.poll ≠ some 1 →
        isFatalLine l = false →
        checkGo w 0 (e :: rest) = checkGo w e.tSet rest) := by
  constructor
  · intro w cp cp' evs
    rfl
  · intro w e rest l hl htr hpoll hfat
    have hk : ¬(0 < (0 : ℤ) ∧ w ≤ e.tCheck - 0) := by
      rintro ⟨h0, _⟩; exact lt_irrefl _ h0
    simp [checkGo, hl, hk, hpoll, hfat, htr]

def evTrack20 : LogEvent := ⟨some "Track: block 20", 3, 3, none⟩

/-- Witness for the amended C5: outcome independence at two checkpoint
arguments, and timer arming by a concrete track line. -/
theorem claim_C5_amended_witness :
    (check_aida_log 5 10 evsTrackOnly = check_aida_log 5 999 evsTrackOnly) ∧
    (checkGo 5 0 [evTrack20] = checkGo 5 evTrack20.tSet []) :=
  ⟨claim_C5_amended_no_checkpoint_tracking.1 5 10 999 evsTrackOnly,
   claim_C5_amended_no_checkpoint_tracking.2 5 evTrack20 [] "Track: block 20"
     rfl (by decide) (by decide) (by decide)⟩

/-- Claim C6 (confirmed).  A successful recovery to checkpoint
`iterCheckpoint e` is followed, in the same pass, by the relaunch of the
sync process with start block `iterCheckpoint e + 1` and the recovered
working database as `--db-src`. -/
theorem claim_C6_resume_start_block_and_source (e : IterEnv) (s : LoopState)
    (h1 : e.resetExit = 0) (h2 : e.exportExit = 0) (h3 : e.importExit = 0) :
    (runIteration e s).1.trace = s.trace ++
      [Action.runInfo (archiveOf e.newDb) (iterCheckpoint e),
       Action.runReset (archiveOf e.newDb) (iterCheckpoint e) 0,
       Action.runExport (archiveOf e.newDb) (iterCheckpoint e) 0,
       Action.removeTree (liveOf e.newDb),
       Action.runImport (liveOf e.newDb) 0,
       Action.launchSync (iterCheckpoint e + 1) (some e.newDb),
       Action.monitorVerdict e.monitorFailed] := by
  rw [runIteration_success e s h1 h2 h3]
  simp [resumeSegment]

def iterRecovered : IterEnv :=
  { newDb := "w/db1", infoExit := 0, infoValue := 70, resetExit := 0,
    exportExit := 0, importExit := 0, monitorFailed := false }

/-- Witness for C6 at a concrete successful iteration recovering to 70. -/
theorem claim_C6_witness :
    (runIteration iterRecovered emptyState).1.trace = emptyState.trace ++
      [Action.runInfo (archiveOf iterRecovered.newDb) (iterCheckpoint iterRecovered),
       Action.runReset (archiveOf iterRecovered.newDb) (iterCheckpoint iterRecovered) 0,
       Action.runExport (archiveOf iterRecovered.newDb) (iterCheckpoint iterRecovered) 0,
       Action.removeTree (liveOf iterRecovered.newDb),
       Action.runImport (liveOf iterRecovered.newDb) 0,
       Action.launchSync (iterCheckpoint iterRecovered + 1) (some iterRecovered.newDb),
       Action.monitorVerdict iterRecovered.monitorFailed] :=
  claim_C6_resume_start_block_and_source iterRecovered emptyState rfl rfl rfl

def envBootstrapFails : RunEnv :=
  { bootstrapFailed := true, bootstrapDb := "w/db0", iters := [] }

/-- Claim C7 concerns a code bug.  On the bootstrap-failure path the claim
(and the script's own comment, "Create working dir which gets deleted after
the run") requires the temporary working root to be removed before exit,
but the code reaches `sys.exit(1)` at line 195 without any `rmtree`: the
trace of a run whose bootstrap sync fails contains no removal action at
all. -/
theorem claim_C7_bootstrap_exits_without_cleanup :
    runScript "w" envBootstrapFails =
      [Action.launchSync 0 none, Action.monitorVerdict true,
       Action.exitWith 1] ∧
    (runScript "w" envBootstrapFails).countP Action.isRemove = 0 := by
  decide

def iterPass1 : IterEnv :=
  { newDb := "w/db1", infoExit := 0, infoValue := 40, resetExit := 0,
    exportExit := 0, importExit := 0, monitorFailed := false }

def iterPass2 : IterEnv :=
  { newDb := "w/db2", infoExit := 0, infoValue := 50, resetExit := 0,
    exportExit := 0, importExit := 0, monitorFailed := false }

def envTwoPasses : RunEnv :=
  { bootstrapFailed := false, bootstrapDb := "w/db1",
    iters := [iterPass1, iterPass2] }

/-- Counterexample to claim C8.  In a run with two fully successful passes,
where the working database of the first pass (`w/db1`) is superseded by
`w/db2` in the second, the superseded directory is never removed — not
before, during, or after the next pass: the whole trace of the successfully
completed run contains zero removals of `w/db1`.  (The source assigns
`last_working_db` and then never uses it.) -/
theorem claim_C8_counterexample :
    countRemovalsOf "w/db1" (runScript "w" envTwoPasses) = 0 ∧
    (runScript "w" envTwoPasses).getLast? = some (Action.exitWith 0) := by
  decide

/-- Every removal a run performs is either the final removal of the whole
working root or the in-pass removal of a live store. -/
lemma runScript_removals (wd : String) (env : RunEnv) :
    ∀ p, Action.removeTree p ∈ runScript wd env →
      p = wd ∨ ∃ db, p = liveOf db := by
  intro p hp
  by_cases hb : env.bootstrapFailed = true
  · rw [runScript_eq_of_bootstrap_failed wd env hb] at hp
    simp at hp
  · have hb' : env.bootstrapFailed = false := by
      cases h : env.bootstrapFailed
      · rfl
      · exact absurd h hb
    rw [runScript_eq_of_bootstrap_ok wd env hb'] at hp
    have hbase : LiveRemovalsOnly (initState env.bootstrapDb).trace := by
      intro q hq
      simp [initState] at hq
    rcases List.mem_append.mp hp with hp | hp
    · exact Or.inr (runLoop_removals env.iters (initState env.bootstrapDb)
        hbase p hp)
    · simp only [List.mem_cons, List.not_mem_nil, or_false] at hp
      rcases hp with hp | hp
      · exact Or.inl (Action.removeTree.inj hp)
      · exact absurd hp (by simp)

/-- Claim C8 as amended.  The previous working database's path is recorded
(`last_working_db` is assigned the superseded directory at the top of every
pass) but no pass ever removes it: the only removals any run performs are
the per-pass removal of the about-to-be-reimported live store and the final
removal of the entire working root at termination.  Superseded
WorkingDatabase directories persist until that final whole-root removal. -/
theorem claim_C8_amended_superseded_db_never_removed (wd : String)
    (env : RunEnv) (e : IterEnv) (s : LoopState) :
    (∀ p, Action.removeTree p ∈ runScript wd env →
        p = wd ∨ ∃ db, p = liveOf db) ∧
    (runIteration e s).1.lastWorkingDb = s.workingDb :=
  ⟨runScript_removals wd env, runIteration_lastWorkingDb e s⟩

/-- Witness for the amended C8: the one removal inside a pass of the
two-pass run is a live store, and `last_working_db` records the superseded
directory. -/
theorem claim_C8_amended_witness :
    ("w/db1/live" = "w" ∨ ∃ db, "w/db1/live" = liveOf db) ∧
    (runIteration iterPass1 emptyState).1.lastWorkingDb =
      emptyState.workingDb :=
  ⟨(claim_C8_amended_superseded_db_never_removed "w" envTwoPasses iterPass1
      emptyState).1 "w/db1/live" (by decide),
   (claim_C8_amended_superseded_db_never_removed "w" envTwoPasses iterPass1
      emptyState).2⟩

/-- Claim C9 (confirmed).  A run's final action is `sys.exit` with status 1
exactly when its trace contains a fatal condition — a `True` monitor verdict
(fatal log signal, from the bootstrap sync or any iteration) or a failed
recovery step (`reset`, `export` or `import-live-db` exiting non-zero) —
and a run with no fatal condition ends by removing the temporary working
root and exiting with status 0. -/
theorem claim_C9_exit_status_iff_fatal (wd : String) (env : RunEnv) :
    ((runScript wd env).getLast? = some (Action.exitWith 1) ↔
      HasFatal (runScript wd env)) ∧
    (¬ HasFatal (runScript wd env) →
      List.IsSuffix [Action.removeTree wd, Action.exitWith 0]
        (runScript wd env)) := by
  by_cases hb : env.bootstrapFailed = true
  · rw [runScript_eq_of_bootstrap_failed wd env hb]
    refine ⟨iff_of_true rfl ⟨Action.monitorVerdict true, by simp, rfl⟩, ?_⟩
    intro hnf
    exact absurd ⟨Action.monitorVerdict true, by simp, rfl⟩ hnf
  · have hb' : env.bootstrapFailed = false := by
      cases h : env.bootstrapFailed
      · rfl
      · exact absurd h hb
    rw [runScript_eq_of_bootstrap_ok wd env hb']
    have hbase2 : ¬ HasFatal (initState env.bootstrapDb).trace := by
      rintro ⟨a, ha, hfa⟩
      simp only [initState, List.mem_cons, List.not_mem_nil, or_false] at ha
      rcases ha with rfl | rfl <;> simp [Action.isFatalSignal] at hfa
    rcases runLoop_fatal_spec env.iters (initState env.bootstrapDb) rfl hbase2
      with ⟨hf, hnf⟩ | ⟨hf, hyes⟩
    · have hcode : (if (runLoop env.iters (initState env.bootstrapDb)).hasFailed
          then (1 : ℤ) else 0) = 0 := by simp [hf]
      rw [hcode]
      constructor
      · constructor
        · intro hlast
          rw [getLast_append_pair] at hlast
          simp at hlast
        · intro hfat
          exfalso
          rcases hasFatal_append.mp hfat with hfat | hfat
          · exact hnf hfat
          · obtain ⟨a, ha, hfa⟩ := hfat
            simp only [List.mem_cons, List.not_mem_nil, or_false] at ha
            rcases ha with rfl | rfl <;> simp [Action.isFatalSignal] at hfa
      · intro _
        exact ⟨(runLoop env.iters (initState env.bootstrapDb)).trace, rfl⟩
    · have hcode : (if (runLoop env.iters (initState env.bootstrapDb)).hasFailed
          then (1 : ℤ) else 0) = 1 := by simp [hf]
      rw [hcode]
      refine ⟨iff_of_true (getLast_append_pair _ _ _)
        (hasFatal_append.mpr (Or.inl hyes)), ?_⟩
      intro hnf
      exact absurd (hasFatal_append.mpr (Or.inl hyes)) hnf

def envHealthy : RunEnv :=
  { bootstrapFailed := false, bootstrapDb := "w/db1", iters := [iterPass1] }

/-- Witness for C9: the fully successful one-iteration run has no fatal
condition, so the theorem yields its clean-exit suffix. -/
theorem claim_C9_witness :
    List.IsSuffix [Action.removeTree "w", Action.exitWith 0]
      (runScript "w" envHealthy) :=
  (claim_C9_exit_status_iff_fatal "w" envHealthy).2 (by
    have hall : ∀ a ∈ runScript "w" envHealthy, a.isFatalSignal = false := by
      decide
    rintro ⟨a, ha, hfa⟩
    rw [hall a ha] at hfa
    exact Bool.false_ne_true hfa)

/-- The `reset` invocation, with the checkpoint the `info` query produced
and its own exit code, appears in every pass's trace. -/
lemma runIteration_reset_mem (e : IterEnv) (s : LoopState) :
    Action.runReset (archiveOf e.newDb) (iterCheckpoint e) e.resetExit ∈
      (runIteration e s).1.trace := by
  by_cases hr : e.resetExit = 0
  · by_cases hx : e.exportExit = 0
    · by_cases hi : e.importExit = 0
      · rw [runIteration_success e s hr hx hi]
        simp [resumeSegment, hr]
      · rw [runIteration_import_ne e s hr hx hi]
        simp [hr]
    · rw [runIteration_export_ne e s hr hx]
      simp [hr]
  · rw [runIteration_reset_ne e s hr]
    simp

/-- When the `reset` succeeded, the `export` invocation (with its own exit
code) also appears in the pass's trace. -/
lemma runIteration_export_mem (e : IterEnv) (s : LoopState)
    (hr : e.resetExit = 0) :
    Action.runExport (archiveOf e.newDb) (iterCheckpoint e) e.exportExit ∈
      (runIteration e s).1.trace := by
  by_cases hx : e.exportExit = 0
  · by_cases hi : e.importExit = 0
    · rw [runIteration_success e s hr hx hi]
      simp [resumeSegment, hx]
    · rw [runIteration_import_ne e s hr hx hi]
      simp [hx]
  · rw [runIteration_export_ne e s hr hx]
    simp

/-- Claim C10 (confirmed).  When the `info` subcommand exits non-zero,
`get_latest_checkpoint_from_info` returns `-1`; the pass is not failed at
that point — it proceeds to invoke `reset` on the archive with checkpoint
`-1` — and only a non-zero exit of that `reset` makes the pass fatal (were
the reset to succeed, the pass would continue to the `export` step). -/
theorem claim_C10_info_failure_flows_into_reset (e : IterEnv) (s : LoopState)
    (h : e.infoExit ≠ 0) :
    get_latest_checkpoint_from_info e.infoExit e.infoValue = -1 ∧
    Action.runReset (archiveOf e.newDb) (-1) e.resetExit ∈
      (runIteration e s).1.trace ∧
    (e.resetExit ≠ 0 → (runIteration e s).1.hasFailed = true ∧
      (runIteration e s).2 = false) ∧
    (e.resetExit = 0 → Action.runExport (archiveOf e.newDb) (-1) e.exportExit ∈
      (runIteration e s).1.trace) := by
  have hcp : iterCheckpoint e = -1 := by
    simp [iterCheckpoint, get_latest_checkpoint_from_info, h]
  refine ⟨by simp [get_latest_checkpoint_from_info, h], ?_, ?_, ?_⟩
  · have := runIteration_reset_mem e s
    rwa [hcp] at this
  · intro hr
    rw [runIteration_reset_ne e s hr]
    exact ⟨rfl, rfl⟩
  · intro hr
    have := runIteration_export_mem e s hr
    rwa [hcp] at this

def iterInfoFails : IterEnv :=
  { newDb := "w/db3", infoExit := 2, infoValue := 0, resetExit := 1,
    exportExit := 0, importExit := 0, monitorFailed := false }

/-- Witness for C10 at a concrete pass whose `info` query fails (exit 2) and
whose subsequent `reset` of checkpoint `-1` fails as the real tool would. -/
theorem claim_C10_witness :
    get_latest_checkpoint_from_info iterInfoFails.infoExit
      iterInfoFails.infoValue = -1 ∧
    Action.runReset (archiveOf iterInfoFails.newDb) (-1)
      iterInfoFails.resetExit ∈
      (runIteration iterInfoFails emptyState).1.trace ∧
    (iterInfoFails.resetExit ≠ 0 →
      (runIteration iterInfoFails emptyState).1.hasFailed = true ∧
      (runIteration iterInfoFails emptyState).2 = false) ∧
    (iterInfoFails.resetExit = 0 →
      Action.runExport (archiveOf iterInfoFails.newDb) (-1)
        iterInfoFails.exportExit ∈
        (runIteration iterInfoFails emptyState).1.trace) :=
  claim_C10_info_failure_flows_into_reset iterInfoFails emptyState (by decide)

end DbHeal
